import Mathlib

/-!
# Verification of the DZI-Conversion pipeline

Shallow embedding of the core of the DZI-Conversion repository:
the Deep Zoom pyramid builder (`src/dzi_converter.py`), the S3 bulk
publisher (`src/cloud_storage.py`) and the chunked-upload / job-progress
utilities (`src/main.py`).  Machine integers are modelled as `Nat`/`Int`
(Python integers are unbounded, so no wrap-around is needed), fallible
code returns `Except`, and the filesystem / network are passed in
explicitly as data.
-/

/-! ## Decimal rendering and parsing

Python renders integers in f-strings (`f"{width}"`) in decimal and parses
directory names with `int(name)`.  We model both directions explicitly so
that string-level round trips can be proved. -/

/-- The decimal digit character for `d` (used with `d < 10`). -/
def digitChar (d : Nat) : Char :=
  if d = 0 then '0' else if d = 1 then '1' else if d = 2 then '2' else if d = 3 then '3'
  else if d = 4 then '4' else if d = 5 then '5' else if d = 6 then '6' else if d = 7 then '7'
  else if d = 8 then '8' else '9'

/-- Numeric value of a decimal digit character. -/
def digitVal (c : Char) : Nat := c.toNat - 48

/-- Big-endian decimal digits of `n`, prepended to `acc`. -/
def natDigitsAux (n : Nat) (acc : List Char) : List Char :=
  if h : n = 0 then acc
  else natDigitsAux (n / 10) (digitChar (n % 10) :: acc)
  decreasing_by exact Nat.div_lt_self (Nat.pos_of_ne_zero h) (by norm_num)

/-- Decimal rendering of a natural number, as Python `str(n)` produces it. -/
def natDigits (n : Nat) : List Char :=
  if n = 0 then ['0'] else natDigitsAux n []

/-- Decimal parsing of a digit list, as Python `int(s)` computes it
(leading zeros allowed). -/
def digitsToNat (cs : List Char) : Nat :=
  cs.foldl (fun acc c => acc * 10 + digitVal c) 0

/-- Number of recursive digit steps of `natDigitsAux`. -/
def ndigits (n : Nat) : Nat :=
  if h : n = 0 then 0 else ndigits (n / 10) + 1
  decreasing_by exact Nat.div_lt_self (Nat.pos_of_ne_zero h) (by norm_num)

theorem digitVal_digitChar {d : Nat} (h : d < 10) : digitVal (digitChar d) = d := by
  interval_cases d <;> decide

theorem digitChar_isDigit {d : Nat} (h : d < 10) : (digitChar d).isDigit = true := by
  interval_cases d <;> decide

theorem foldl_natDigitsAux (n : Nat) : ∀ (acc : List Char) (v : Nat),
    (natDigitsAux n acc).foldl (fun a c => a * 10 + digitVal c) v =
      acc.foldl (fun a c => a * 10 + digitVal c) (v * 10 ^ ndigits n + n) := by
  induction n using Nat.strong_induction_on with
  | _ n ih =>
    intro acc v
    by_cases h : n = 0
    · subst h
      simp [natDigitsAux, ndigits]
    · rw [natDigitsAux, dif_neg h,
        ih (n / 10) (Nat.div_lt_self (Nat.pos_of_ne_zero h) (by norm_num))]
      have hd : digitVal (digitChar (n % 10)) = n % 10 :=
        digitVal_digitChar (Nat.mod_lt _ (by norm_num))
      have hnd : ndigits n = ndigits (n / 10) + 1 := by
        rw [ndigits, dif_neg h]
      simp only [List.foldl_cons, hd, hnd]
      congr 1
      have hmod : 10 * (n / 10) + n % 10 = n := Nat.div_add_mod n 10
      ring_nf
      omega

theorem digitsToNat_natDigits (n : Nat) : digitsToNat (natDigits n) = n := by
  by_cases h : n = 0
  · subst h; decide
  · unfold natDigits digitsToNat
    rw [if_neg h, foldl_natDigitsAux]
    simp

theorem natDigits_all_isDigit (n : Nat) : ∀ c ∈ natDigits n, c.isDigit = true := by
  unfold natDigits
  by_cases h : n = 0
  · subst h; decide
  · rw [if_neg h]
    have key : ∀ m acc, (∀ c ∈ acc, c.isDigit = true) →
        ∀ c ∈ natDigitsAux m acc, c.isDigit = true := by
      intro m
      induction m using Nat.strong_induction_on with
      | _ m ih =>
        intro acc hacc c hc
        by_cases hm : m = 0
        · subst hm
          rw [natDigitsAux] at hc
          exact hacc c (by simpa using hc)
        · rw [natDigitsAux, dif_neg hm] at hc
          refine ih (m / 10) (Nat.div_lt_self (Nat.pos_of_ne_zero hm) (by norm_num)) _ ?_ c hc
          intro c' hc'
          rcases List.mem_cons.mp hc' with h1 | h2
          · subst h1; exact digitChar_isDigit (Nat.mod_lt _ (by norm_num))
          · exact hacc c' h2
    exact key n [] (by simp)

/-! ## Pyramid builder (`DZIConverter._convert_with_pil`)

`src/dzi_converter.py` lines 391-446: level count, per-level dimensions and
the tile grid.  `math.ceil(math.log2 (max w h))` over positive integers is
`Nat.clog 2 (max w h)`; `math.ceil (a / b)` over positive integers is
ceiling division. -/

/-- Ceiling division, `math.ceil(a / b)` for naturals with `b > 0`. -/
def cdiv (a b : Nat) : Nat := (a + b - 1) / b

/-- Code `max_level = math.ceil(math.log2(max(width, height)))` (line 394). -/
def maxLevel (w h : Nat) : Nat := Nat.clog 2 (max w h)

/-- Number of pyramid levels: the loop `for level in range(max_level + 1)`
(line 411) produces `maxLevel + 1` levels. -/
def levelCount (w h : Nat) : Nat := maxLevel w h + 1

/-- Code `scale = 2 ** (max_level - level)` (line 416). -/
def levelScale (w h level : Nat) : Nat := 2 ^ (maxLevel w h - level)

/-- Code `level_width = math.ceil(width / scale)` (line 417). -/
def levelWidth (w h level : Nat) : Nat := cdiv w (levelScale w h level)

/-- Code `level_height = math.ceil(height / scale)` (line 418). -/
def levelHeight (w h level : Nat) : Nat := cdiv h (levelScale w h level)

/-- One stored tile: grid position, filename and crop rectangle
(lines 430-442). -/
structure Tile where
  col : Nat
  row : Nat
  name : List Char
  x : Nat
  y : Nat
  x2 : Nat
  y2 : Nat
  deriving Repr, DecidableEq

/-- The tile written at grid cell `(col, row)` of a level of dimensions
`lw × lh` (lines 432-442): the crop box is clipped to the level bounds and
the file is named `f"{col}_{row}.{format}"`. -/
def mkTile (tileSize overlap lw lh : Nat) (fmt : List Char) (col row : Nat) : Tile :=
  { col := col
    row := row
    name := natDigits col ++ ['_'] ++ natDigits row ++ ['.'] ++ fmt
    x := col * tileSize
    y := row * tileSize
    x2 := min (col * tileSize + tileSize + overlap) lw
    y2 := min (row * tileSize + tileSize + overlap) lh }

/-- Code `cols = math.ceil(level_width / tile_size)` (line 427). -/
def tileCols (tileSize lw : Nat) : Nat := cdiv lw tileSize

/-- Code `rows = math.ceil(level_height / tile_size)` (line 428). -/
def tileRows (tileSize lh : Nat) : Nat := cdiv lh tileSize

/-- All tiles of one level, in the order the nested loops
`for col in range(cols): for row in range(rows):` write them (lines 430-431). -/
def levelTiles (tileSize overlap lw lh : Nat) (fmt : List Char) : List Tile :=
  (List.range (tileCols tileSize lw)).flatMap fun col =>
    (List.range (tileRows tileSize lh)).map fun row =>
      mkTile tileSize overlap lw lh fmt col row

/-- The level indices produced by `for level in range(max_level + 1)`
(line 411). -/
def pyramidLevels (w h : Nat) : List Nat := List.range (levelCount w h)

theorem cdiv_one (a : Nat) : cdiv a 1 = a := by simp [cdiv]

theorem maxLevel_500_300 : maxLevel 500 300 = 9 := by
  have h1 : Nat.clog 2 500 ≤ 9 := (Nat.le_pow_iff_clog_le (by norm_num)).mp (by norm_num)
  have h2 : ¬ Nat.clog 2 500 ≤ 8 := by
    intro hc
    have h500 : 500 ≤ 2 ^ 8 := (Nat.le_pow_iff_clog_le (by norm_num)).mpr hc
    norm_num at h500
  simp only [maxLevel]
  norm_num
  omega

/-- C3: For every source image of dimensions W×H (W,H ≥ 1) converted by
the PIL path, the pyramid has exactly `ceil(log2(max(W,H))) + 1` levels
(`maxLevel` is the least `k` with `max W H ≤ 2^k`, i.e. `⌈log2 (max W H)⌉`),
numbered contiguously from 0 to `levelCount - 1`, and the finest level
pixel dimensions equal exactly `(W, H)`. -/
theorem C3_level_count_and_finest_dims (w h : Nat) (hw : 1 ≤ w) (hh : 1 ≤ h) :
    (max w h ≤ 2 ^ maxLevel w h ∧ ∀ j, max w h ≤ 2 ^ j → maxLevel w h ≤ j) ∧
    levelCount w h = maxLevel w h + 1 ∧
    pyramidLevels w h = List.range (levelCount w h) ∧
    levelWidth w h (maxLevel w h) = w ∧
    levelHeight w h (maxLevel w h) = h := by
  refine ⟨⟨Nat.le_pow_clog (by norm_num) _, fun j hj => ?_⟩, rfl, rfl, ?_, ?_⟩
  · exact (Nat.le_pow_iff_clog_le (by norm_num)).mp hj
  · simp [levelWidth, levelScale, cdiv_one]
  · simp [levelHeight, levelScale, cdiv_one]

theorem C3_level_count_and_finest_dims_witness :
    (1 ≤ 500 ∧ 1 ≤ 300) ∧
    ((max 500 300 ≤ 2 ^ maxLevel 500 300 ∧ ∀ j, max 500 300 ≤ 2 ^ j → maxLevel 500 300 ≤ j) ∧
     levelCount 500 300 = maxLevel 500 300 + 1 ∧
     pyramidLevels 500 300 = List.range (levelCount 500 300) ∧
     levelWidth 500 300 (maxLevel 500 300) = 500 ∧
     levelHeight 500 300 (maxLevel 500 300) = 300) :=
  ⟨⟨by norm_num, by norm_num⟩, C3_level_count_and_finest_dims 500 300 (by norm_num) (by norm_num)⟩

/-- C4: For every level `L` of the pyramid, the PIL converter writes
exactly `ceil(levelWidth/tileSize) * ceil(levelHeight/tileSize)` tiles,
named `{col}_{row}.{ext}` exactly for `0 ≤ col < cols`, `0 ≤ row < rows`,
each crop clipped to the level bounds so its width and height are at most
`tileSize + overlap`. -/
theorem C4_tile_grid (w h L ts ov : Nat) (fmt : List Char)
    (hts : 0 < ts) (hL : L < levelCount w h) :
    (levelTiles ts ov (levelWidth w h L) (levelHeight w h L) fmt).length =
      cdiv (levelWidth w h L) ts * cdiv (levelHeight w h L) ts ∧
    (∀ t ∈ levelTiles ts ov (levelWidth w h L) (levelHeight w h L) fmt,
      t.col < tileCols ts (levelWidth w h L) ∧ t.row < tileRows ts (levelHeight w h L) ∧
      t.name = natDigits t.col ++ ['_'] ++ natDigits t.row ++ ['.'] ++ fmt ∧
      t.x2 - t.x ≤ ts + ov ∧ t.y2 - t.y ≤ ts + ov) ∧
    (∀ col row, col < tileCols ts (levelWidth w h L) → row < tileRows ts (levelHeight w h L) →
      mkTile ts ov (levelWidth w h L) (levelHeight w h L) fmt col row ∈
        levelTiles ts ov (levelWidth w h L) (levelHeight w h L) fmt) := by
  set lw := levelWidth w h L
  set lh := levelHeight w h L
  refine ⟨?_, ?_, ?_⟩
  · simp [levelTiles, List.flatMap, tileCols, tileRows, Function.comp_def]
  · intro t ht
    simp only [levelTiles, List.mem_flatMap, List.mem_map, List.mem_range] at ht
    obtain ⟨col, hcol, row, hrow, rfl⟩ := ht
    refine ⟨hcol, hrow, rfl, ?_, ?_⟩
    · have h1 : min (col * ts + ts + ov) lw ≤ col * ts + ts + ov := min_le_left _ _
      simp only [mkTile]
      omega
    · have h1 : min (row * ts + ts + ov) lh ≤ row * ts + ts + ov := min_le_left _ _
      simp only [mkTile]
      omega
  · intro col row hcol hrow
    simp only [levelTiles, List.mem_flatMap, List.mem_map, List.mem_range]
    exact ⟨col, hcol, row, hrow, rfl⟩

theorem C4_tile_grid_witness :
    (0 < 256 ∧ 9 < levelCount 500 300) ∧
    ((levelTiles 256 1 (levelWidth 500 300 9) (levelHeight 500 300 9) ['j']).length =
      cdiv (levelWidth 500 300 9) 256 * cdiv (levelHeight 500 300 9) 256 ∧
    (∀ t ∈ levelTiles 256 1 (levelWidth 500 300 9) (levelHeight 500 300 9) ['j'],
      t.col < tileCols 256 (levelWidth 500 300 9) ∧ t.row < tileRows 256 (levelHeight 500 300 9) ∧
      t.name = natDigits t.col ++ ['_'] ++ natDigits t.row ++ ['.'] ++ ['j'] ∧
      t.x2 - t.x ≤ 256 + 1 ∧ t.y2 - t.y ≤ 256 + 1) ∧
    (∀ col row, col < tileCols 256 (levelWidth 500 300 9) →
        row < tileRows 256 (levelHeight 500 300 9) →
      mkTile 256 1 (levelWidth 500 300 9) (levelHeight 500 300 9) ['j'] col row ∈
        levelTiles 256 1 (levelWidth 500 300 9) (levelHeight 500 300 9) ['j'])) :=
  ⟨⟨by norm_num, by rw [levelCount, maxLevel_500_300]; norm_num⟩,
    C4_tile_grid 500 300 9 256 1 ['j'] (by norm_num)
      (by rw [levelCount, maxLevel_500_300]; norm_num)⟩

/-! ## DZI descriptor XML (`DZIConverter._convert_with_pil`, lines 396-406)

The descriptor is generated by one f-string.  We embed it as the exact
character sequence, split at the interpolation points, and prove that a
string-level scan recovers the declared attribute values. -/

/-- Fixed text before the `Format` attribute, including the XML namespace
declaration. -/
def xmlHead : List Char :=
  ("<?xml version=\"1.0\" encoding=\"UTF-8\"?>\n" ++
   "<Image xmlns=\"http://schemas.microsoft.com/deepzoom/2008\"\n       ").data

def fmtAttr : List Char := "Format=\"".data

/-- Closing quote and attribute indentation between attributes. -/
def attrSep : List Char := "\"\n       ".data

def ovAttr : List Char := "Overlap=\"".data

def tsAttr : List Char := "TileSize=\"".data

/-- Closing of the root element open tag and the `Size` child indent. -/
def sizeOpen : List Char := "\">\n    ".data

def sizeElem : List Char := "<Size ".data

def wAttr : List Char := "Width=\"".data

def hAttrSep : List Char := "\" ".data

def hAttr : List Char := "Height=\"".data

def xmlTail : List Char := "\"/>\n</Image>".data

/-- The namespace attribute required by deep-zoom viewers. -/
def xmlnsDeepzoom : List Char :=
  "xmlns=\"http://schemas.microsoft.com/deepzoom/2008\"".data

/-- The `dzi_content` f-string of lines 397-403, character for character. -/
def dziXmlChars (fmt : List Char) (overlap tileSize width height : Nat) : List Char :=
  xmlHead ++ (fmtAttr ++ (fmt ++ (attrSep ++ (ovAttr ++ (natDigits overlap ++
    (attrSep ++ (tsAttr ++ (natDigits tileSize ++ (sizeOpen ++ (sizeElem ++
    (wAttr ++ (natDigits width ++ (hAttrSep ++ (hAttr ++
    (natDigits height ++ xmlTail)))))))))))))))

/-- Whether `pat` is an initial segment of `s`. -/
def listStartsWith : List Char → List Char → Bool
  | [], _ => true
  | _ :: _, [] => false
  | p :: ps, x :: xs => p == x && listStartsWith ps xs

/-- The remainder of `s` after the first occurrence of `pat`. -/
def afterFirst (pat : List Char) : List Char → Option (List Char)
  | [] => if listStartsWith pat [] then some [] else none
  | x :: xs =>
    if listStartsWith pat (x :: xs) then some ((x :: xs).drop pat.length)
    else afterFirst pat xs

/-- Scan for `pat` and parse the decimal digits that follow it. -/
def extractNatAfter (pat : List Char) (s : List Char) : Option Nat :=
  (afterFirst pat s).map fun rest => digitsToNat (rest.takeWhile Char.isDigit)

theorem listStartsWith_append (p b : List Char) : listStartsWith p (p ++ b) = true := by
  induction p with
  | nil => rfl
  | cons x xs ih => simp [listStartsWith, ih]

theorem afterFirst_append {c : Char} (ps b : List Char) :
    ∀ a : List Char, c ∉ a → afterFirst (c :: ps) (a ++ ((c :: ps) ++ b)) = some b := by
  intro a
  induction a with
  | nil =>
    intro _
    simp only [List.nil_append]
    show afterFirst (c :: ps) (c :: (ps ++ b)) = some b
    rw [afterFirst]
    rw [show c :: (ps ++ b) = (c :: ps) ++ b from rfl, listStartsWith_append]
    simp
  | cons x xs ih =>
    intro hmem
    have hxc : ¬ (c = x) := fun hh => hmem (hh ▸ List.mem_cons_self x xs)
    have hstart : listStartsWith (c :: ps) (x :: (xs ++ ((c :: ps) ++ b))) = false := by
      simp [listStartsWith, Bool.and_eq_false_iff]
      intro hcx
      exact absurd hcx hxc
    rw [List.cons_append, afterFirst, hstart]
    simp only [Bool.false_eq_true, if_false]
    exact ih (fun hc => hmem (List.mem_cons_of_mem x hc))

theorem takeWhile_digits_append {l1 : List Char} (h1 : ∀ c ∈ l1, c.isDigit = true)
    {c : Char} (hc : c.isDigit = false) (l2 : List Char) :
    (l1 ++ c :: l2).takeWhile Char.isDigit = l1 := by
  induction l1 with
  | nil => simp [List.takeWhile_cons, hc]
  | cons x xs ih =>
    have hx : x.isDigit = true := h1 x (List.mem_cons_self x xs)
    simp only [List.cons_append, List.takeWhile_cons, hx]
    rw [ih (fun c' hc' => h1 c' (List.mem_cons_of_mem x hc'))]
    simp

theorem not_digit_notMem_natDigits {c : Char} (hc : c.isDigit = false) (n : Nat) :
    c ∉ natDigits n := by
  intro h
  have := natDigits_all_isDigit n c h
  rw [hc] at this
  exact Bool.noConfusion this

theorem notMem_append2 {α : Type} {c : α} {l1 l2 : List α} (h1 : c ∉ l1) (h2 : c ∉ l2) :
    c ∉ l1 ++ l2 := by
  simp only [List.mem_append]
  tauto

/-- C7: The `.dzi` descriptor written by the PIL converter is an XML
document whose root element carries `Format`, `Overlap`, `TileSize`
attributes under the deep-zoom 2008 namespace, with a child `Size` element
carrying `Width` and `Height`; scanning the document for the declared
`Width`/`Height` (and `Overlap`, and `TileSize` after `Overlap`) recovers
the pixel dimensions of the source image exactly — the round trip from source
dimensions through the descriptor back to dimensions is the identity. -/
theorem C7_dzi_descriptor_roundtrip (fmt : List Char) (ov ts w h : Nat)
    (hW : 'W' ∉ fmt) (hH : 'H' ∉ fmt) (hO : 'O' ∉ fmt) :
    (∃ a b, dziXmlChars fmt ov ts w h = a ++ (xmlnsDeepzoom ++ b)) ∧
    (∃ b, dziXmlChars fmt ov ts w h = xmlHead ++ (fmtAttr ++ (fmt ++ ('"' :: b)))) ∧
    extractNatAfter wAttr (dziXmlChars fmt ov ts w h) = some w ∧
    extractNatAfter hAttr (dziXmlChars fmt ov ts w h) = some h ∧
    extractNatAfter ovAttr (dziXmlChars fmt ov ts w h) = some ov ∧
    (afterFirst ovAttr (dziXmlChars fmt ov ts w h)).bind (extractNatAfter tsAttr) = some ts := by
  refine ⟨?_, ?_, ?_, ?_, ?_, ?_⟩
  · -- namespace on the root element
    refine ⟨"<?xml version=\"1.0\" encoding=\"UTF-8\"?>\n<Image ".data,
      "\n       ".data ++ (fmtAttr ++ (fmt ++ (attrSep ++ (ovAttr ++ (natDigits ov ++
        (attrSep ++ (tsAttr ++ (natDigits ts ++ (sizeOpen ++ (sizeElem ++
        (wAttr ++ (natDigits w ++ (hAttrSep ++ (hAttr ++
        (natDigits h ++ xmlTail))))))))))))))), ?_⟩
    have hsplit : xmlHead = "<?xml version=\"1.0\" encoding=\"UTF-8\"?>\n<Image ".data ++
        (xmlnsDeepzoom ++ "\n       ".data) := by decide
    rw [dziXmlChars, hsplit]
    simp [List.append_assoc]
  · -- Format attribute with the caller-supplied format value
    refine ⟨"\n       ".data ++ (ovAttr ++ (natDigits ov ++ (attrSep ++ (tsAttr ++
      (natDigits ts ++ (sizeOpen ++ (sizeElem ++ (wAttr ++ (natDigits w ++
      (hAttrSep ++ (hAttr ++ (natDigits h ++ xmlTail)))))))))))), ?_⟩
    rw [dziXmlChars, show attrSep = '"' :: "\n       ".data from rfl]
    simp [List.append_assoc]
  · -- Width round trip
    have hnotW : 'W' ∉ xmlHead ++ (fmtAttr ++ (fmt ++ (attrSep ++ (ovAttr ++
        (natDigits ov ++ (attrSep ++ (tsAttr ++ (natDigits ts ++
        (sizeOpen ++ sizeElem))))))))) :=
      notMem_append2 (by decide) (notMem_append2 (by decide) (notMem_append2 hW
        (notMem_append2 (by decide) (notMem_append2 (by decide)
          (notMem_append2 (not_digit_notMem_natDigits (by decide) ov)
            (notMem_append2 (by decide) (notMem_append2 (by decide)
              (notMem_append2 (not_digit_notMem_natDigits (by decide) ts)
                (notMem_append2 (by decide) (by decide))))))))))
    have hdoc : dziXmlChars fmt ov ts w h =
        (xmlHead ++ (fmtAttr ++ (fmt ++ (attrSep ++ (ovAttr ++ (natDigits ov ++
          (attrSep ++ (tsAttr ++ (natDigits ts ++ (sizeOpen ++ sizeElem)))))))))) ++
        (('W' :: "idth=\"".data) ++
          (natDigits w ++ (hAttrSep ++ (hAttr ++ (natDigits h ++ xmlTail))))) := by
      rw [dziXmlChars]
      simp [List.append_assoc]
      rfl
    rw [extractNatAfter, show wAttr = 'W' :: "idth=\"".data from rfl, hdoc,
      afterFirst_append _ _ _ hnotW]
    simp only [Option.map_some']
    rw [show natDigits w ++ (hAttrSep ++ (hAttr ++ (natDigits h ++ xmlTail))) =
        natDigits w ++ '"' :: (" ".data ++ (hAttr ++ (natDigits h ++ xmlTail))) from rfl]
    rw [takeWhile_digits_append (natDigits_all_isDigit w) (by decide), digitsToNat_natDigits]
  · -- Height round trip
    have hnotH : 'H' ∉ xmlHead ++ (fmtAttr ++ (fmt ++ (attrSep ++ (ovAttr ++
        (natDigits ov ++ (attrSep ++ (tsAttr ++ (natDigits ts ++
        (sizeOpen ++ (sizeElem ++ (wAttr ++ (natDigits w ++ hAttrSep)))))))))))) :=
      notMem_append2 (by decide) (notMem_append2 (by decide) (notMem_append2 hH
        (notMem_append2 (by decide) (notMem_append2 (by decide)
          (notMem_append2 (not_digit_notMem_natDigits (by decide) ov)
            (notMem_append2 (by decide) (notMem_append2 (by decide)
              (notMem_append2 (not_digit_notMem_natDigits (by decide) ts)
                (notMem_append2 (by decide) (notMem_append2 (by decide)
                  (notMem_append2 (by decide)
                    (notMem_append2 (not_digit_notMem_natDigits (by decide) w)
                      (by decide)))))))))))))
    have hdoc : dziXmlChars fmt ov ts w h =
        (xmlHead ++ (fmtAttr ++ (fmt ++ (attrSep ++ (ovAttr ++ (natDigits ov ++
          (attrSep ++ (tsAttr ++ (natDigits ts ++ (sizeOpen ++ (sizeElem ++
          (wAttr ++ (natDigits w ++ hAttrSep))))))))))))) ++
        (('H' :: "eight=\"".data) ++ (natDigits h ++ xmlTail)) := by
      rw [dziXmlChars]
      simp [List.append_assoc]
      rfl
    rw [extractNatAfter, show hAttr = 'H' :: "eight=\"".data from rfl, hdoc,
      afterFirst_append _ _ _ hnotH]
    simp only [Option.map_some']
    rw [show natDigits h ++ xmlTail = natDigits h ++ '"' :: "/>\n</Image>".data from rfl]
    rw [takeWhile_digits_append (natDigits_all_isDigit h) (by decide), digitsToNat_natDigits]
  · -- Overlap round trip
    have hnotO : 'O' ∉ xmlHead ++ (fmtAttr ++ (fmt ++ attrSep)) :=
      notMem_append2 (by decide) (notMem_append2 (by decide)
        (notMem_append2 hO (by decide)))
    have hdoc : dziXmlChars fmt ov ts w h =
        (xmlHead ++ (fmtAttr ++ (fmt ++ attrSep))) ++
        (('O' :: "verlap=\"".data) ++ (natDigits ov ++ (attrSep ++ (tsAttr ++
          (natDigits ts ++ (sizeOpen ++ (sizeElem ++ (wAttr ++ (natDigits w ++
          (hAttrSep ++ (hAttr ++ (natDigits h ++ xmlTail)))))))))))) := by
      rw [dziXmlChars]
      simp [List.append_assoc]
      rfl
    rw [extractNatAfter, show ovAttr = 'O' :: "verlap=\"".data from rfl, hdoc,
      afterFirst_append _ _ _ hnotO]
    simp only [Option.map_some']
    rw [show natDigits ov ++ (attrSep ++ (tsAttr ++ (natDigits ts ++ (sizeOpen ++
        (sizeElem ++ (wAttr ++ (natDigits w ++ (hAttrSep ++ (hAttr ++
        (natDigits h ++ xmlTail)))))))))) =
        natDigits ov ++ '"' :: ("\n       ".data ++ (tsAttr ++ (natDigits ts ++
        (sizeOpen ++ (sizeElem ++ (wAttr ++ (natDigits w ++ (hAttrSep ++ (hAttr ++
        (natDigits h ++ xmlTail)))))))))) from rfl]
    rw [takeWhile_digits_append (natDigits_all_isDigit ov) (by decide), digitsToNat_natDigits]
  · -- TileSize round trip, scanned after the Overlap attribute
    have hnotO : 'O' ∉ xmlHead ++ (fmtAttr ++ (fmt ++ attrSep)) :=
      notMem_append2 (by decide) (notMem_append2 (by decide)
        (notMem_append2 hO (by decide)))
    have hdoc : dziXmlChars fmt ov ts w h =
        (xmlHead ++ (fmtAttr ++ (fmt ++ attrSep))) ++
        (('O' :: "verlap=\"".data) ++ (natDigits ov ++ (attrSep ++ (tsAttr ++
          (natDigits ts ++ (sizeOpen ++ (sizeElem ++ (wAttr ++ (natDigits w ++
          (hAttrSep ++ (hAttr ++ (natDigits h ++ xmlTail)))))))))))) := by
      rw [dziXmlChars]
      simp [List.append_assoc]
      rfl
    have hOv : ovAttr = 'O' :: "verlap=\"".data := rfl
    rw [hdoc, hOv, afterFirst_append _ _ _ hnotO]
    simp only [Option.some_bind]
    have hnotT : 'T' ∉ natDigits ov ++ attrSep :=
      notMem_append2 (not_digit_notMem_natDigits (by decide) ov) (by decide)
    have hrest : natDigits ov ++ (attrSep ++ (tsAttr ++ (natDigits ts ++ (sizeOpen ++
        (sizeElem ++ (wAttr ++ (natDigits w ++ (hAttrSep ++ (hAttr ++
        (natDigits h ++ xmlTail)))))))))) =
        (natDigits ov ++ attrSep) ++ (('T' :: "ileSize=\"".data) ++ (natDigits ts ++
        (sizeOpen ++ (sizeElem ++ (wAttr ++ (natDigits w ++ (hAttrSep ++ (hAttr ++
        (natDigits h ++ xmlTail))))))))) := by
      simp [List.append_assoc]
      rfl
    rw [extractNatAfter, hrest, show tsAttr = 'T' :: "ileSize=\"".data from rfl,
      afterFirst_append _ _ _ hnotT]
    simp only [Option.map_some']
    rw [show natDigits ts ++ (sizeOpen ++ (sizeElem ++ (wAttr ++ (natDigits w ++
        (hAttrSep ++ (hAttr ++ (natDigits h ++ xmlTail))))))) =
        natDigits ts ++ '"' :: (">\n    ".data ++ (sizeElem ++ (wAttr ++ (natDigits w ++
        (hAttrSep ++ (hAttr ++ (natDigits h ++ xmlTail))))))) from rfl]
    rw [takeWhile_digits_append (natDigits_all_isDigit ts) (by decide), digitsToNat_natDigits]

theorem C7_dzi_descriptor_roundtrip_witness :
    ('W' ∉ "jpeg".data ∧ 'H' ∉ "jpeg".data ∧ 'O' ∉ "jpeg".data) ∧
    ((∃ a b, dziXmlChars "jpeg".data 1 256 500 300 = a ++ (xmlnsDeepzoom ++ b)) ∧
     (∃ b, dziXmlChars "jpeg".data 1 256 500 300 =
        xmlHead ++ (fmtAttr ++ ("jpeg".data ++ ('"' :: b)))) ∧
     extractNatAfter wAttr (dziXmlChars "jpeg".data 1 256 500 300) = some 500 ∧
     extractNatAfter hAttr (dziXmlChars "jpeg".data 1 256 500 300) = some 300 ∧
     extractNatAfter ovAttr (dziXmlChars "jpeg".data 1 256 500 300) = some 1 ∧
     (afterFirst ovAttr (dziXmlChars "jpeg".data 1 256 500 300)).bind
        (extractNatAfter tsAttr) = some 256) :=
  ⟨⟨by decide, by decide, by decide⟩,
    C7_dzi_descriptor_roundtrip "jpeg".data 1 256 500 300 (by decide) (by decide) (by decide)⟩

/-! ## Bulk publisher enumeration (`S3Storage.upload_dzi`, lines 70-124)

The upload-unit list: the `.dzi` descriptor first, the thumbnail when it
exists, then the tiles — level directories filtered to numeric names,
sorted by numeric value, and files inside each level sorted by name.
The directory listing order (`Path.iterdir`) is operating-system dependent,
so it is an input of the model; determinism is proved as invariance under
permutations of that listing. -/

/-- One entry of the `tiles_dir.iterdir()` listing: its name, whether it is
a directory, and (for directories) the names of the plain files inside. -/
structure DirEntry where
  name : List Char
  isDir : Bool
  files : List (List Char)
  deriving Repr, DecidableEq

/-- An upload unit `(local_path, cloud_key, content_type)` (lines 77-124). -/
structure UploadUnit where
  localPath : List Char
  cloudKey : List Char
  contentType : List Char
  deriving Repr, DecidableEq

/-- Python `str.isdigit` on the ASCII names produced by the converter:
nonempty and all digits (line 97). -/
def isDigitName (s : List Char) : Bool := !s.isEmpty && s.all Char.isDigit

/-- Model of `Path.suffix` for the simple `name.ext` file names the converter
produces: the last dot and what follows, `[]` when there is no dot. -/
def pathSuffix (s : List Char) : List Char :=
  if '.' ∈ s then '.' :: (s.reverse.takeWhile (fun c => c ≠ '.')).reverse else []

/-- Code `content_type = image/jpeg if the suffix is .jpg or .jpeg, else image/png` (line 119). -/
def tileContentType (fileName : List Char) : List Char :=
  if pathSuffix fileName = ".jpg".data ∨ pathSuffix fileName = ".jpeg".data
  then "image/jpeg".data else "image/png".data

/-- Lexicographic comparison of strings by code point, the order the Python
string sort uses. -/
def listLeb : List Char → List Char → Bool
  | [], _ => true
  | _ :: _, [] => false
  | a :: as, b :: bs =>
    if a.toNat < b.toNat then true
    else if b.toNat < a.toNat then false
    else listLeb as bs

/-- Relation `strLe a b` holds when `a` sorts no later than `b`. -/
def strLe (a b : List Char) : Prop := listLeb a b = true

instance : DecidableRel strLe := fun a b => instDecidableEqBool _ _

theorem charToNat_inj {a b : Char} (h : a.toNat = b.toNat) : a = b :=
  Char.ext (UInt32.ext h)

theorem listLeb_total : ∀ a b : List Char, listLeb a b = true ∨ listLeb b a = true := by
  intro a
  induction a with
  | nil => intro b; left; rfl
  | cons x xs ih =>
    intro b
    cases b with
    | nil => right; rfl
    | cons y ys =>
      by_cases h1 : x.toNat < y.toNat
      · left; simp [listLeb, h1]
      · by_cases h2 : y.toNat < x.toNat
        · right; simp [listLeb, h1, h2]
        · have hxy : x.toNat = y.toNat := by omega
          rcases ih ys with h | h
          · left; simp [listLeb, h1, h2, h]
          · right
            have hyx : ¬ y.toNat < x.toNat := by omega
            have hxy2 : ¬ x.toNat < y.toNat := by omega
            simp [listLeb, hyx, hxy2, h]

theorem listLeb_trans : ∀ a b c : List Char,
    listLeb a b = true → listLeb b c = true → listLeb a c = true := by
  intro a
  induction a with
  | nil => intro b c _ _; rfl
  | cons x xs ih =>
    intro b c hab hbc
    cases b with
    | nil => simp [listLeb] at hab
    | cons y ys =>
      cases c with
      | nil => simp [listLeb] at hbc
      | cons z zs =>
        simp only [listLeb] at hab hbc ⊢
        by_cases h1 : x.toNat < y.toNat <;> by_cases h2 : y.toNat < z.toNat <;>
          by_cases h3 : y.toNat < x.toNat <;> by_cases h4 : z.toNat < y.toNat <;>
          simp [h1, h2, h3, h4] at hab hbc ⊢ <;>
          first
            | omega
            | (have hxz : ¬ x.toNat < z.toNat := by omega
               have hzx : ¬ z.toNat < x.toNat := by omega
               simp [hxz, hzx]
               first
                 | exact ih ys zs hab hbc
                 | exact ⟨by omega, ih ys zs hab hbc⟩)

theorem listLeb_antisymm : ∀ a b : List Char,
    listLeb a b = true → listLeb b a = true → a = b := by
  intro a
  induction a with
  | nil =>
    intro b _ hba
    cases b with
    | nil => rfl
    | cons y ys => simp [listLeb] at hba
  | cons x xs ih =>
    intro b hab hba
    cases b with
    | nil => simp [listLeb] at hab
    | cons y ys =>
      simp only [listLeb] at hab hba
      by_cases h1 : x.toNat < y.toNat <;> by_cases h2 : y.toNat < x.toNat <;>
        simp [h1, h2] at hab hba
      · omega
      · have hxy : x = y := charToNat_inj (by omega)
        rw [hxy, ih ys hab hba]

instance : IsTotal (List Char) strLe := ⟨listLeb_total⟩

instance : IsTrans (List Char) strLe := ⟨listLeb_trans⟩

instance : IsAntisymm (List Char) strLe := ⟨listLeb_antisymm⟩

/-- Order on `(int(name), entry)` pairs used by
`level_dirs.sort` by numeric key (line 101). -/
def keyLe (a b : Nat × DirEntry) : Prop := a.1 ≤ b.1

instance : DecidableRel keyLe := fun a b => Nat.decLe a.1 b.1

instance : IsTotal (Nat × DirEntry) keyLe := ⟨fun a b => Nat.le_total a.1 b.1⟩

instance : IsTrans (Nat × DirEntry) keyLe := ⟨fun _ _ _ => Nat.le_trans⟩

/-- The `(int(item.name), item)` pairs kept by the filter on lines 96-98. -/
def digitLevelDirs (entries : List DirEntry) : List (Nat × DirEntry) :=
  (entries.filter fun e => e.isDir && isDigitName e.name).map fun e =>
    (digitsToNat e.name, e)

/-- The level directories after `level_dirs.sort` by numeric key
(line 101). -/
def sortedLevelDirs (entries : List DirEntry) : List (Nat × DirEntry) :=
  List.insertionSort keyLe (digitLevelDirs entries)

/-- The tile files of one level after `tile_files.sort` by name
(line 114). -/
def sortedFiles (files : List (List Char)) : List (List Char) :=
  List.insertionSort strLe files

/-- The upload units of one level directory (lines 116-124). -/
def levelUnits (tilesPath cloudPrefix : List Char) (lv : Nat × DirEntry) :
    List UploadUnit :=
  (sortedFiles lv.2.files).map fun f =>
    { localPath := tilesPath ++ ('/' :: lv.2.name) ++ ('/' :: f)
      cloudKey := cloudPrefix ++ "_files/".data ++ lv.2.name ++ ('/' :: f)
      contentType := tileContentType f }

/-- The `.dzi` descriptor upload unit (lines 77-81). -/
def dziUnit (dziPath cloudPrefix : List Char) : UploadUnit :=
  { localPath := dziPath
    cloudKey := cloudPrefix ++ ".dzi".data
    contentType := "application/xml".data }

/-- The thumbnail upload unit (lines 84-89). -/
def thumbUnit (thumbPath cloudPrefix : List Char) : UploadUnit :=
  { localPath := thumbPath
    cloudKey := cloudPrefix ++ "_thumbnail.jpg".data
    contentType := "image/jpeg".data }

/-- The list `files_to_upload` as built on lines 74-124: descriptor, thumbnail when
it exists, then tiles by ascending numeric level and lexicographic file
name.  `tilesListing` is `none` when `tiles_dir` does not exist. -/
def uploadUnits (dziPath thumbPath tilesPath cloudPrefix : List Char)
    (thumbExists : Bool) (tilesListing : Option (List DirEntry)) : List UploadUnit :=
  dziUnit dziPath cloudPrefix ::
    ((if thumbExists then [thumbUnit thumbPath cloudPrefix] else []) ++
      (match tilesListing with
       | none => []
       | some entries =>
         (sortedLevelDirs entries).flatMap (levelUnits tilesPath cloudPrefix)))

/-- Two `iterdir` listings present the same directory tree: same entries up
to listing order, with the same per-directory file sets up to order. -/
def entryEquiv (a b : DirEntry) : Prop :=
  a.name = b.name ∧ a.isDir = b.isDir ∧ a.files.Perm b.files

/-- Same tree, possibly listed in different order at both levels. -/
def sameTree (l₁ l₂ : List DirEntry) : Prop :=
  ∃ mid, l₁.Perm mid ∧ List.Forall₂ entryEquiv mid l₂

theorem sortedFiles_perm_eq {f₁ f₂ : List (List Char)} (hp : f₁.Perm f₂) :
    sortedFiles f₁ = sortedFiles f₂ :=
  List.eq_of_perm_of_sorted
    ((List.perm_insertionSort strLe f₁).trans (hp.trans (List.perm_insertionSort strLe f₂).symm))
    (List.sorted_insertionSort strLe f₁) (List.sorted_insertionSort strLe f₂)

theorem pairwise_conj {α : Type} {R S : α → α → Prop} :
    ∀ {l : List α}, l.Pairwise R → l.Pairwise S → l.Pairwise fun a b => R a b ∧ S a b := by
  intro l h1 h2
  induction l with
  | nil => exact List.Pairwise.nil
  | cons x xs ih =>
    cases h1 with
    | cons hx1 hxs1 =>
      cases h2 with
      | cons hx2 hxs2 =>
        exact List.Pairwise.cons (fun b hb => ⟨hx1 b hb, hx2 b hb⟩) (ih hxs1 hxs2)

theorem sorted_key_nodup_eq {l₁ l₂ : List (Nat × DirEntry)} (hp : l₁.Perm l₂)
    (hs₁ : List.Sorted keyLe l₁) (hs₂ : List.Sorted keyLe l₂)
    (hnd : (l₁.map Prod.fst).Nodup) : l₁ = l₂ := by
  have hnd₂ : (l₂.map Prod.fst).Nodup := ((hp.map Prod.fst).nodup_iff).mp hnd
  have hne₁ : l₁.Pairwise fun a b => a.1 ≠ b.1 := List.pairwise_map.mp hnd
  have hne₂ : l₂.Pairwise fun a b => a.1 ≠ b.1 := List.pairwise_map.mp hnd₂
  have hlt₁ : l₁.Pairwise fun a b : Nat × DirEntry => a.1 < b.1 :=
    (pairwise_conj hs₁ hne₁).imp fun hab => lt_of_le_of_ne hab.1 hab.2
  have hlt₂ : l₂.Pairwise fun a b : Nat × DirEntry => a.1 < b.1 :=
    (pairwise_conj hs₂ hne₂).imp fun hab => lt_of_le_of_ne hab.1 hab.2
  haveI : IsAntisymm (Nat × DirEntry) fun a b => a.1 < b.1 :=
    ⟨fun a b h1 h2 => absurd h2 (Nat.lt_asymm h1)⟩
  exact List.eq_of_perm_of_sorted hp hlt₁ hlt₂

theorem forall2_filter {α : Type} {R : α → α → Prop} {p : α → Bool}
    (hcomp : ∀ a b, R a b → p a = p b) :
    ∀ {l m : List α}, List.Forall₂ R l m → List.Forall₂ R (l.filter p) (m.filter p) := by
  intro l m h
  induction h with
  | nil => exact List.Forall₂.nil
  | cons hR hF ih =>
    rename_i a b l' m'
    by_cases hp : p a = true
    · rw [List.filter_cons_of_pos hp, List.filter_cons_of_pos ((hcomp a b hR) ▸ hp)]
      exact List.Forall₂.cons hR ih
    · rw [List.filter_cons_of_neg hp,
        List.filter_cons_of_neg (fun hb => hp ((hcomp a b hR).symm ▸ hb))]
      exact ih

theorem forall2_map {α β : Type} {R : α → α → Prop} {S : β → β → Prop} (f g : α → β)
    (h : ∀ a b, R a b → S (f a) (g b)) :
    ∀ {l m : List α}, List.Forall₂ R l m → List.Forall₂ S (l.map f) (m.map g) := by
  intro l m hF
  induction hF with
  | nil => exact List.Forall₂.nil
  | cons hR hF2 ih => exact List.Forall₂.cons (h _ _ hR) ih

theorem forall2_orderedInsert {α : Type} {R : α → α → Prop} {r : α → α → Prop}
    [DecidableRel r] (hrc : ∀ a b a' b', R a a' → R b b' → (r a b ↔ r a' b'))
    {a a' : α} (hR : R a a') :
    ∀ {l l' : List α}, List.Forall₂ R l l' →
      List.Forall₂ R (List.orderedInsert r a l) (List.orderedInsert r a' l') := by
  intro l l' hF
  induction hF with
  | nil => exact List.Forall₂.cons hR List.Forall₂.nil
  | cons hbc hF2 ih =>
    rename_i b b' bs bs'
    by_cases h : r a b
    · rw [List.orderedInsert, if_pos h, List.orderedInsert,
        if_pos ((hrc a b a' b' hR hbc).mp h)]
      exact List.Forall₂.cons hR (List.Forall₂.cons hbc hF2)
    · rw [List.orderedInsert, if_neg h, List.orderedInsert,
        if_neg (fun hx => h ((hrc a b a' b' hR hbc).mpr hx))]
      exact List.Forall₂.cons hbc ih

theorem forall2_insertionSort {α : Type} {R : α → α → Prop} {r : α → α → Prop}
    [DecidableRel r] (hrc : ∀ a b a' b', R a a' → R b b' → (r a b ↔ r a' b')) :
    ∀ {l l' : List α}, List.Forall₂ R l l' →
      List.Forall₂ R (List.insertionSort r l) (List.insertionSort r l') := by
  intro l l' hF
  induction hF with
  | nil => exact List.Forall₂.nil
  | cons hR hF2 ih => exact forall2_orderedInsert hrc hR ih

theorem forall2_flatMap_eq {α β : Type} {R : α → α → Prop} (f : α → List β)
    (h : ∀ a b, R a b → f a = f b) :
    ∀ {l m : List α}, List.Forall₂ R l m → l.flatMap f = m.flatMap f := by
  intro l m hF
  induction hF with
  | nil => rfl
  | cons hR hF2 ih =>
    rename_i a b l' m'
    show f a ++ l'.flatMap f = f b ++ m'.flatMap f
    rw [h a b hR, ih]

/-- Pairs `(int(name), entry)` describing the same level directory. -/
def pairEquiv (a b : Nat × DirEntry) : Prop := a.1 = b.1 ∧ entryEquiv a.2 b.2

theorem levelUnits_congr (tilesPath cloudPrefix : List Char) {a b : Nat × DirEntry}
    (h : pairEquiv a b) :
    levelUnits tilesPath cloudPrefix a = levelUnits tilesPath cloudPrefix b := by
  obtain ⟨-, hn, -, hf⟩ := h
  unfold levelUnits
  rw [hn, sortedFiles_perm_eq hf]

/-- C6: `S3Storage.upload_dzi` enumerates upload units deterministically:
the `.dzi` descriptor first, then the thumbnail if it exists, then tiles by
level directory in ascending numeric level order, files within each level
sorted lexicographically; two runs over the same directory tree — i.e. two
`iterdir` listings presenting the same entries and file sets, in any
order — yield the identical upload-unit sequence. -/
theorem C6_enumeration_deterministic_order
    (dziPath thumbPath tilesPath cloudPrefix : List Char) (thumbExists : Bool)
    (e₁ e₂ : List DirEntry) (hsame : sameTree e₁ e₂)
    (hnd : ((digitLevelDirs e₁).map Prod.fst).Nodup) :
    uploadUnits dziPath thumbPath tilesPath cloudPrefix thumbExists (some e₁) =
      dziUnit dziPath cloudPrefix ::
        ((if thumbExists then [thumbUnit thumbPath cloudPrefix] else []) ++
          (sortedLevelDirs e₁).flatMap (levelUnits tilesPath cloudPrefix)) ∧
    List.Pairwise keyLe (sortedLevelDirs e₁) ∧
    (∀ lv ∈ sortedLevelDirs e₁, List.Pairwise strLe (sortedFiles lv.2.files)) ∧
    uploadUnits dziPath thumbPath tilesPath cloudPrefix thumbExists (some e₁) =
      uploadUnits dziPath thumbPath tilesPath cloudPrefix thumbExists (some e₂) := by
  obtain ⟨mid, hperm, hF⟩ := hsame
  refine ⟨rfl, List.sorted_insertionSort keyLe _, fun lv _ => List.sorted_insertionSort strLe _, ?_⟩
  have hstep1 : sortedLevelDirs e₁ = sortedLevelDirs mid := by
    have hpd : (digitLevelDirs e₁).Perm (digitLevelDirs mid) :=
      ((hperm.filter _).map _)
    have hnd' : ((sortedLevelDirs e₁).map Prod.fst).Nodup := by
      have : (sortedLevelDirs e₁).Perm (digitLevelDirs e₁) :=
        List.perm_insertionSort keyLe _
      exact ((this.map Prod.fst).nodup_iff).mpr hnd
    exact sorted_key_nodup_eq
      ((List.perm_insertionSort keyLe _).trans
        (hpd.trans (List.perm_insertionSort keyLe _).symm))
      (List.sorted_insertionSort keyLe _) (List.sorted_insertionSort keyLe _) hnd'
  have hstep2 : List.Forall₂ pairEquiv (digitLevelDirs mid) (digitLevelDirs e₂) := by
    have hfil : List.Forall₂ entryEquiv
        (mid.filter fun e => e.isDir && isDigitName e.name)
        (e₂.filter fun e => e.isDir && isDigitName e.name) := by
      refine forall2_filter ?_ hF
      intro a b hab
      obtain ⟨hn, hd, -⟩ := hab
      rw [hn, hd]
    refine forall2_map _ _ ?_ hfil
    intro a b hab
    exact ⟨by rw [hab.1], hab⟩
  have hstep3 : List.Forall₂ pairEquiv (sortedLevelDirs mid) (sortedLevelDirs e₂) := by
    refine forall2_insertionSort ?_ hstep2
    intro a b a' b' ha hb
    unfold keyLe
    rw [ha.1, hb.1]
  have hstep4 : (sortedLevelDirs mid).flatMap (levelUnits tilesPath cloudPrefix) =
      (sortedLevelDirs e₂).flatMap (levelUnits tilesPath cloudPrefix) :=
    forall2_flatMap_eq _ (fun a b hab => levelUnits_congr tilesPath cloudPrefix hab) hstep3
  show dziUnit dziPath cloudPrefix ::
      ((if thumbExists = true then [thumbUnit thumbPath cloudPrefix] else []) ++
        (sortedLevelDirs e₁).flatMap (levelUnits tilesPath cloudPrefix)) =
    dziUnit dziPath cloudPrefix ::
      ((if thumbExists = true then [thumbUnit thumbPath cloudPrefix] else []) ++
        (sortedLevelDirs e₂).flatMap (levelUnits tilesPath cloudPrefix))
  rw [hstep1, hstep4]

theorem C6_enumeration_deterministic_order_witness :
    (sameTree
        [⟨"10".data, true, ["1_0.jpeg".data, "0_0.jpeg".data]⟩,
         ⟨"2".data, true, ["0_0.jpeg".data]⟩]
        [⟨"2".data, true, ["0_0.jpeg".data]⟩,
         ⟨"10".data, true, ["0_0.jpeg".data, "1_0.jpeg".data]⟩] ∧
      ((digitLevelDirs
        [⟨"10".data, true, ["1_0.jpeg".data, "0_0.jpeg".data]⟩,
         ⟨"2".data, true, ["0_0.jpeg".data]⟩]).map Prod.fst).Nodup) ∧
    (uploadUnits "p.dzi".data "t.jpg".data "p_files".data "dzi/j/p".data true
        (some [⟨"10".data, true, ["1_0.jpeg".data, "0_0.jpeg".data]⟩,
               ⟨"2".data, true, ["0_0.jpeg".data]⟩]) =
      dziUnit "p.dzi".data "dzi/j/p".data ::
        ((if true then [thumbUnit "t.jpg".data "dzi/j/p".data] else []) ++
          (sortedLevelDirs
            [⟨"10".data, true, ["1_0.jpeg".data, "0_0.jpeg".data]⟩,
             ⟨"2".data, true, ["0_0.jpeg".data]⟩]).flatMap
            (levelUnits "p_files".data "dzi/j/p".data)) ∧
      List.Pairwise keyLe (sortedLevelDirs
        [⟨"10".data, true, ["1_0.jpeg".data, "0_0.jpeg".data]⟩,
         ⟨"2".data, true, ["0_0.jpeg".data]⟩]) ∧
      (∀ lv ∈ sortedLevelDirs
        [⟨"10".data, true, ["1_0.jpeg".data, "0_0.jpeg".data]⟩,
         ⟨"2".data, true, ["0_0.jpeg".data]⟩],
        List.Pairwise strLe (sortedFiles lv.2.files)) ∧
      uploadUnits "p.dzi".data "t.jpg".data "p_files".data "dzi/j/p".data true
        (some [⟨"10".data, true, ["1_0.jpeg".data, "0_0.jpeg".data]⟩,
               ⟨"2".data, true, ["0_0.jpeg".data]⟩]) =
      uploadUnits "p.dzi".data "t.jpg".data "p_files".data "dzi/j/p".data true
        (some [⟨"2".data, true, ["0_0.jpeg".data]⟩,
               ⟨"10".data, true, ["0_0.jpeg".data, "1_0.jpeg".data]⟩])) :=
  ⟨⟨⟨[⟨"2".data, true, ["0_0.jpeg".data]⟩,
      ⟨"10".data, true, ["1_0.jpeg".data, "0_0.jpeg".data]⟩],
     by decide,
     List.Forall₂.cons ⟨rfl, rfl, by decide⟩
       (List.Forall₂.cons ⟨rfl, rfl, by decide⟩ List.Forall₂.nil)⟩,
    by decide⟩,
   C6_enumeration_deterministic_order "p.dzi".data "t.jpg".data "p_files".data
     "dzi/j/p".data true _ _
     ⟨[⟨"2".data, true, ["0_0.jpeg".data]⟩,
       ⟨"10".data, true, ["1_0.jpeg".data, "0_0.jpeg".data]⟩],
      by decide,
      List.Forall₂.cons ⟨rfl, rfl, by decide⟩
        (List.Forall₂.cons ⟨rfl, rfl, by decide⟩ List.Forall₂.nil)⟩
     (by decide)⟩

/-! ## Bulk publisher transport selection and upload run
(`S3Storage.upload_dzi`, lines 143-402)

The per-unit network outcomes and the completion order of the thread pool
are inputs of the model: `settled` is the sequence of `(unit, success)`
results in the completion order the event loop yields them.  `upload_file`
catches every exception (lines 201-261), so each settled future carries a
`(success, payload)` value and the result-processing loop runs exactly once
per unit. -/

/-- The two per-unit transports of lines 169-198. -/
inductive Transport where
  | httpPut
  | boto3
  deriving Repr, DecidableEq

/-- Connection configuration held by `S3Storage`: the `is_public` flag and
the resolved credentials (`None` models an absent or Python-falsy key). -/
structure S3Config where
  isPublic : Bool
  accessKey : Option String
  secretKey : Option String
  deriving Repr, DecidableEq

/-- Python truthiness of `self.access_key and self.secret_key`. -/
def hasCreds (cfg : S3Config) : Bool := cfg.accessKey.isSome && cfg.secretKey.isSome

/-- Lines 170-198: `use_http_put = self.is_public and not (access and
secret)`; then boto3 when credentials exist; otherwise
`raise ValueError(...)`. -/
def chooseTransport (cfg : S3Config) : Except String Transport :=
  if cfg.isPublic && !hasCreds cfg then Except.ok Transport.httpPut
  else if hasCreds cfg then Except.ok Transport.boto3
  else Except.error "No credentials provided and bucket is not public. Cannot upload."

/-- One settled upload future: the unit and whether `upload_file`
returned success. -/
structure SettledUnit where
  unit : UploadUnit
  ok : Bool
  deriving Repr, DecidableEq

/-- The running value of `uploaded` after each settle event: incremented
only on success (lines 304-305). -/
def successCounts : List Bool → Nat → List Nat
  | [], _ => []
  | b :: rest, acc =>
    (if b then acc + 1 else acc) :: successCounts rest (if b then acc + 1 else acc)

/-- The sequence of values passed to `on_progress`, one per settled future:
`uploaded / total_files` (line 310). -/
def progressSeq (outcomes : List Bool) (total : Nat) : List ℚ :=
  (successCounts outcomes 0).map fun k : Nat => (k : ℚ) / (total : ℚ)

/-- Code `self.base_url` (line 38). -/
def baseUrl (bucket region : List Char) : List Char :=
  "https://".data ++ bucket ++ ".s3.".data ++ region ++ ".amazonaws.com".data

/-- The aggregate error message of line 386:
`f"Failed to upload {len(failed_uploads)} files out of {total_files}"`. -/
def failedCountMsg (failures total : Nat) : String :=
  s!"Failed to upload {failures} files out of {total}"

/-- Observable behaviour of one `upload_dzi` upload phase. -/
structure RunResult where
  attempted : List UploadUnit
  progressCalls : List ℚ
  result : Except String (List Char × List Char)

/-- The upload phase of `upload_dzi` (lines 169-402): transport selection
(raising before any upload when neither credentials nor the public flag is
present), one settle event per unit, the progress callback after each
settle, and the aggregate failure check of lines 329-386 followed by the
`(dzi_url, thumbnail_url)` return of lines 399-402. -/
def uploadDziRun (cfg : S3Config) (bucket region cloudPrefix : List Char)
    (settled : List SettledUnit) : RunResult :=
  match chooseTransport cfg with
  | Except.error m => { attempted := [], progressCalls := [], result := Except.error m }
  | Except.ok _ =>
    let total := settled.length
    let failures := (settled.filter fun s => !s.ok).length
    { attempted := settled.map SettledUnit.unit
      progressCalls := progressSeq (settled.map SettledUnit.ok) total
      result :=
        if failures > 0 then
          Except.error (failedCountMsg failures total)
        else
          Except.ok
            (baseUrl bucket region ++ ('/' :: cloudPrefix) ++ ".dzi".data,
             baseUrl bucket region ++ ('/' :: cloudPrefix) ++ "_thumbnail.jpg".data) }

theorem successCounts_length : ∀ (l : List Bool) (acc : Nat),
    (successCounts l acc).length = l.length := by
  intro l
  induction l with
  | nil => intro acc; rfl
  | cons b rest ih => intro acc; simp [successCounts, ih]

theorem successCounts_head_le (l : List Bool) (acc : Nat) :
    ∀ x ∈ (successCounts l acc).head?, acc ≤ x := by
  intro x hx
  cases l with
  | nil => simp [successCounts] at hx
  | cons b rest =>
    simp [successCounts] at hx
    subst hx
    split <;> omega

theorem successCounts_chain : ∀ (l : List Bool) (acc : Nat),
    List.Chain' (· ≤ ·) (successCounts l acc) := by
  intro l
  induction l with
  | nil => intro acc; simp [successCounts]
  | cons b rest ih =>
    intro acc
    rw [successCounts, List.chain'_cons']
    exact ⟨successCounts_head_le rest _, ih _⟩

theorem getLast?_cons_of_ne {α : Type} (a : α) {l : List α} (h : l ≠ []) :
    (a :: l).getLast? = l.getLast? := by
  cases l with
  | nil => exact absurd rfl h
  | cons c cs => exact List.getLast?_cons_cons

theorem successCounts_getLast : ∀ (l : List Bool) (acc : Nat), l ≠ [] →
    (successCounts l acc).getLast? = some (acc + (l.filter id).length) := by
  intro l
  induction l with
  | nil => intro acc h; exact absurd rfl h
  | cons b rest ih =>
    intro acc _
    cases hrest : rest with
    | nil =>
      cases b <;> simp [successCounts, List.filter]
    | cons c cs =>
      subst hrest
      rw [successCounts]
      have hre : successCounts (c :: cs) (if b then acc + 1 else acc) ≠ [] := by
        rw [successCounts]
        simp
      rw [getLast?_cons_of_ne _ hre, ih _ (by simp)]
      cases b <;> simp [List.filter_cons] <;> omega

theorem chooseTransport_ok (cfg : S3Config)
    (h : hasCreds cfg = true ∨ cfg.isPublic = true) :
    ∃ t, chooseTransport cfg = Except.ok t := by
  cases hp : cfg.isPublic <;> cases hc : hasCreds cfg
  · rcases h with h | h <;> rw [hp] at * <;> rw [hc] at * <;> simp_all
  · exact ⟨Transport.boto3, by simp [chooseTransport, hp, hc]⟩
  · exact ⟨Transport.httpPut, by simp [chooseTransport, hp, hc]⟩
  · exact ⟨Transport.boto3, by simp [chooseTransport, hp, hc]⟩

theorem filter_ok_add_not (settled : List SettledUnit) :
    (settled.filter fun s => s.ok).length + (settled.filter fun s => !s.ok).length =
      settled.length := by
  induction settled with
  | nil => rfl
  | cons s rest ih =>
    cases h : s.ok <;> simp [List.filter_cons, h] <;> omega

/-- C1 counterexample:  One upload unit whose transfer fails: the
callback is invoked once, but receives `0` (the success count over the
total), not `1.0` — the final received value is not `1.0` when units
fail, because `uploaded` (line 305) counts only successes. -/
theorem C1_progress_counterexample :
    (uploadDziRun ⟨true, none, none⟩ "b".data "r".data "p".data
        [⟨⟨"f".data, "k".data, "image/png".data⟩, false⟩]).progressCalls = [(0 : ℚ)] ∧
    (uploadDziRun ⟨true, none, none⟩ "b".data "r".data "p".data
        [⟨⟨"f".data, "k".data, "image/png".data⟩, false⟩]).progressCalls.getLast? ≠
      some 1 := by
  have h : (uploadDziRun ⟨true, none, none⟩ "b".data "r".data "p".data
      [⟨⟨"f".data, "k".data, "image/png".data⟩, false⟩]).progressCalls = [(0 : ℚ)] := by
    simp [uploadDziRun, chooseTransport, hasCreds, progressSeq, successCounts]
  refine ⟨h, ?_⟩
  rw [h]
  simp

/-- C1 amended: For every run of the upload phase over N settled
units with a progress callback, the callback is invoked exactly N times;
each invocation receives `successesSoFar / N` — counting only units that
uploaded successfully, not all settled units; the received sequence is
non-decreasing; the final value is `successCount / N`, which equals `1.0`
exactly when no unit failed. -/
theorem C1_progress_calls (cfg : S3Config) (bucket region cloudPrefix : List Char)
    (settled : List SettledUnit)
    (htr : hasCreds cfg = true ∨ cfg.isPublic = true) (hne : settled ≠ []) :
    (uploadDziRun cfg bucket region cloudPrefix settled).progressCalls.length =
      settled.length ∧
    List.Chain' (· ≤ ·)
      (uploadDziRun cfg bucket region cloudPrefix settled).progressCalls ∧
    (uploadDziRun cfg bucket region cloudPrefix settled).progressCalls.getLast? =
      some (((settled.filter fun s => s.ok).length : ℚ) / (settled.length : ℚ)) ∧
    ((uploadDziRun cfg bucket region cloudPrefix settled).progressCalls.getLast? =
        some 1 ↔ (settled.filter fun s => !s.ok).length = 0) := by
  obtain ⟨t, ht⟩ := chooseTransport_ok cfg htr
  have hrun : (uploadDziRun cfg bucket region cloudPrefix settled).progressCalls =
      progressSeq (settled.map SettledUnit.ok) settled.length := by
    unfold uploadDziRun
    rw [ht]
  have hmapne : settled.map SettledUnit.ok ≠ [] := by
    intro hx
    exact hne (List.map_eq_nil_iff.mp hx)
  have hpos : 0 < settled.length := List.length_pos_of_ne_nil hne
  have hposQ : (0 : ℚ) < (settled.length : ℚ) := by exact_mod_cast hpos
  have hfil : ((settled.map SettledUnit.ok).filter id).length =
      (settled.filter fun s => s.ok).length := by
    rw [List.filter_map]
    simp [Function.comp]
  have hlast : (uploadDziRun cfg bucket region cloudPrefix settled).progressCalls.getLast? =
      some (((settled.filter fun s => s.ok).length : ℚ) / (settled.length : ℚ)) := by
    rw [hrun]
    unfold progressSeq
    rw [List.getLast?_map, successCounts_getLast _ _ hmapne]
    simp [hfil]
  refine ⟨?_, ?_, hlast, ?_⟩
  · rw [hrun]
    unfold progressSeq
    rw [List.length_map, successCounts_length, List.length_map]
  · rw [hrun]
    unfold progressSeq
    rw [List.chain'_map]
    refine (successCounts_chain _ 0).imp ?_
    intro a b hab
    exact (div_le_div_iff_of_pos_right hposQ).mpr (by exact_mod_cast hab)
  · rw [hlast]
    constructor
    · intro hx
      have hdiv : ((settled.filter fun s => s.ok).length : ℚ) / (settled.length : ℚ) = 1 :=
        Option.some_injective _ hx
      have heq : ((settled.filter fun s => s.ok).length : ℚ) = (settled.length : ℚ) :=
        (div_eq_one_iff_eq (ne_of_gt hposQ)).mp hdiv
      have heqN : (settled.filter fun s => s.ok).length = settled.length := by
        exact_mod_cast heq
      have := filter_ok_add_not settled
      omega
    · intro hzero
      have := filter_ok_add_not settled
      have heqN : (settled.filter fun s => s.ok).length = settled.length := by omega
      rw [heqN, div_self (ne_of_gt hposQ)]

theorem C1_progress_calls_witness :
    ((hasCreds ⟨false, some "k", some "s"⟩ = true ∨
        (⟨false, some "k", some "s"⟩ : S3Config).isPublic = true) ∧
      ([(⟨⟨"a".data, "ka".data, "image/png".data⟩, true⟩ : SettledUnit),
        ⟨⟨"b".data, "kb".data, "image/png".data⟩, false⟩] : List SettledUnit) ≠ []) ∧
    ((uploadDziRun ⟨false, some "k", some "s"⟩ "b".data "r".data "p".data
        [⟨⟨"a".data, "ka".data, "image/png".data⟩, true⟩,
         ⟨⟨"b".data, "kb".data, "image/png".data⟩, false⟩]).progressCalls.length =
      ([(⟨⟨"a".data, "ka".data, "image/png".data⟩, true⟩ : SettledUnit),
        ⟨⟨"b".data, "kb".data, "image/png".data⟩, false⟩] : List SettledUnit).length ∧
    List.Chain' (· ≤ ·)
      (uploadDziRun ⟨false, some "k", some "s"⟩ "b".data "r".data "p".data
        [⟨⟨"a".data, "ka".data, "image/png".data⟩, true⟩,
         ⟨⟨"b".data, "kb".data, "image/png".data⟩, false⟩]).progressCalls ∧
    (uploadDziRun ⟨false, some "k", some "s"⟩ "b".data "r".data "p".data
        [⟨⟨"a".data, "ka".data, "image/png".data⟩, true⟩,
         ⟨⟨"b".data, "kb".data, "image/png".data⟩, false⟩]).progressCalls.getLast? =
      some ((((([(⟨⟨"a".data, "ka".data, "image/png".data⟩, true⟩ : SettledUnit),
        ⟨⟨"b".data, "kb".data, "image/png".data⟩, false⟩] : List SettledUnit).filter
          fun s => s.ok).length : ℚ)) /
        ((([(⟨⟨"a".data, "ka".data, "image/png".data⟩, true⟩ : SettledUnit),
        ⟨⟨"b".data, "kb".data, "image/png".data⟩, false⟩] : List SettledUnit).length : ℚ))) ∧
    ((uploadDziRun ⟨false, some "k", some "s"⟩ "b".data "r".data "p".data
        [⟨⟨"a".data, "ka".data, "image/png".data⟩, true⟩,
         ⟨⟨"b".data, "kb".data, "image/png".data⟩, false⟩]).progressCalls.getLast? =
        some 1 ↔
      (([(⟨⟨"a".data, "ka".data, "image/png".data⟩, true⟩ : SettledUnit),
        ⟨⟨"b".data, "kb".data, "image/png".data⟩, false⟩] : List SettledUnit).filter
          fun s => !s.ok).length = 0)) :=
  ⟨⟨Or.inl rfl, by simp⟩,
   C1_progress_calls ⟨false, some "k", some "s"⟩ "b".data "r".data "p".data
     [⟨⟨"a".data, "ka".data, "image/png".data⟩, true⟩,
      ⟨⟨"b".data, "kb".data, "image/png".data⟩, false⟩]
     (Or.inl rfl) (by simp)⟩

/-- C2: If any of the N units fail, the upload phase raises an
aggregate error whose message reports the failure count out of the total
unit count, and only after every one of the N units has been attempted
(the attempted list always covers all N units, failures included); with no
failures it returns the `(dzi_url, thumbnail_url)` pair. -/
theorem C2_aggregate_error_after_all_attempts (cfg : S3Config)
    (bucket region cloudPrefix : List Char) (units : List UploadUnit)
    (settled : List SettledUnit)
    (hperm : (settled.map SettledUnit.unit).Perm units)
    (htr : hasCreds cfg = true ∨ cfg.isPublic = true) :
    ((uploadDziRun cfg bucket region cloudPrefix settled).attempted).Perm units ∧
    (uploadDziRun cfg bucket region cloudPrefix settled).attempted.length =
      units.length ∧
    (0 < (settled.filter fun s => !s.ok).length →
      (uploadDziRun cfg bucket region cloudPrefix settled).result =
        Except.error
          (failedCountMsg (settled.filter fun s => !s.ok).length units.length)) ∧
    ((settled.filter fun s => !s.ok).length = 0 →
      (uploadDziRun cfg bucket region cloudPrefix settled).result =
        Except.ok
          (baseUrl bucket region ++ ('/' :: cloudPrefix) ++ ".dzi".data,
           baseUrl bucket region ++ ('/' :: cloudPrefix) ++ "_thumbnail.jpg".data)) := by
  obtain ⟨t, ht⟩ := chooseTransport_ok cfg htr
  have hlen : settled.length = units.length := by
    have := hperm.length_eq
    simpa using this
  have hatt : (uploadDziRun cfg bucket region cloudPrefix settled).attempted =
      settled.map SettledUnit.unit := by
    unfold uploadDziRun
    rw [ht]
  have hres : (uploadDziRun cfg bucket region cloudPrefix settled).result =
      (if (settled.filter fun s => !s.ok).length > 0 then
        Except.error
          (failedCountMsg (settled.filter fun s => !s.ok).length settled.length)
      else
        Except.ok
          (baseUrl bucket region ++ ('/' :: cloudPrefix) ++ ".dzi".data,
           baseUrl bucket region ++ ('/' :: cloudPrefix) ++ "_thumbnail.jpg".data)) := by
    unfold uploadDziRun
    rw [ht]
  refine ⟨hatt ▸ hperm, ?_, ?_, ?_⟩
  · rw [hatt, List.length_map, hlen]
  · intro hf
    rw [hres, if_pos hf, hlen]
  · intro hf
    rw [hres, if_neg (by omega)]

theorem C2_aggregate_error_after_all_attempts_witness :
    ((([⟨⟨"a".data, "ka".data, "image/png".data⟩, true⟩,
        ⟨⟨"b".data, "kb".data, "image/png".data⟩, false⟩] :
          List SettledUnit).map SettledUnit.unit).Perm
        [⟨"b".data, "kb".data, "image/png".data⟩, ⟨"a".data, "ka".data, "image/png".data⟩] ∧
      (hasCreds ⟨false, some "k", some "s"⟩ = true ∨
        (⟨false, some "k", some "s"⟩ : S3Config).isPublic = true)) ∧
    (((uploadDziRun ⟨false, some "k", some "s"⟩ "b".data "r".data "p".data
        [⟨⟨"a".data, "ka".data, "image/png".data⟩, true⟩,
         ⟨⟨"b".data, "kb".data, "image/png".data⟩, false⟩]).attempted).Perm
        [⟨"b".data, "kb".data, "image/png".data⟩, ⟨"a".data, "ka".data, "image/png".data⟩] ∧
      (uploadDziRun ⟨false, some "k", some "s"⟩ "b".data "r".data "p".data
        [⟨⟨"a".data, "ka".data, "image/png".data⟩, true⟩,
         ⟨⟨"b".data, "kb".data, "image/png".data⟩, false⟩]).attempted.length = 2 ∧
      (uploadDziRun ⟨false, some "k", some "s"⟩ "b".data "r".data "p".data
        [⟨⟨"a".data, "ka".data, "image/png".data⟩, true⟩,
         ⟨⟨"b".data, "kb".data, "image/png".data⟩, false⟩]).result =
        Except.error "Failed to upload 1 files out of 2") := by
  have h := C2_aggregate_error_after_all_attempts ⟨false, some "k", some "s"⟩
    "b".data "r".data "p".data
    [⟨"b".data, "kb".data, "image/png".data⟩, ⟨"a".data, "ka".data, "image/png".data⟩]
    [⟨⟨"a".data, "ka".data, "image/png".data⟩, true⟩,
     ⟨⟨"b".data, "kb".data, "image/png".data⟩, false⟩]
    (by decide) (Or.inl rfl)
  refine ⟨⟨by decide, Or.inl rfl⟩, h.1, h.2.1, ?_⟩
  have hres := h.2.2.1 (by decide)
  rw [hres]
  rfl

/-- C5: `upload_dzi` chooses the unsigned plain-HTTP-PUT transport
exactly when the bucket is flagged public and no access-key/secret-key
pair is available; chooses the credentialed boto3 transport whenever both
keys are available; and when neither credentials nor the public flag is
present it raises the configuration error before any per-file upload is
attempted (no unit attempted, no progress call made). -/
theorem C5_transport_selection (cfg : S3Config) (bucket region cloudPrefix : List Char)
    (settled : List SettledUnit) :
    (chooseTransport cfg = Except.ok Transport.httpPut ↔
      cfg.isPublic = true ∧ hasCreds cfg = false) ∧
    (chooseTransport cfg = Except.ok Transport.boto3 ↔ hasCreds cfg = true) ∧
    (cfg.isPublic = false → hasCreds cfg = false →
      chooseTransport cfg =
        Except.error "No credentials provided and bucket is not public. Cannot upload." ∧
      (uploadDziRun cfg bucket region cloudPrefix settled).attempted = [] ∧
      (uploadDziRun cfg bucket region cloudPrefix settled).progressCalls = []) := by
  cases hp : cfg.isPublic <;> cases hc : hasCreds cfg <;>
    simp [chooseTransport, uploadDziRun, hp, hc]

/-! ## Chunked upload reassembly (`main.py`, `upload_chunk` lines 313-361
and `complete_chunk_upload` lines 383-532)

Chunks arrive keyed by `(upload_id, chunk_index)` into a dict; completion
verifies the received count, walks indices `0 .. total_chunks-1` in order
(existence and size pass, then the merge pass), and verifies the merged
byte count against the sum of the chunk sizes before queuing conversion.
A chunk file is its byte list; the dict is an association list with
distinct keys. -/

/-- One upload session record (`chunk_uploads[upload_id]`). -/
structure UploadInfo where
  chunks : List (Nat × List Nat)
  total_chunks : Nat
  deriving Repr, DecidableEq

/-- Dict lookup `upload_info[chunks-key].get(i)`. -/
def chunkLookup (chunks : List (Nat × List Nat)) (i : Nat) : Option (List Nat) :=
  (chunks.find? fun c => c.1 == i).map Prod.snd

/-- Code `[i for i in range(total_chunks) if i not in upload_info[chunks-key]]`
(line 394). -/
def missingChunks (info : UploadInfo) : List Nat :=
  (List.range info.total_chunks).filter fun i => (chunkLookup info.chunks i).isNone

/-- The error message of lines 395-399. -/
def notAllChunksMsg (info : UploadInfo) : String :=
  let missing := missingChunks info
  let received := info.chunks.length
  let total := info.total_chunks
  s!"Not all chunks uploaded. Missing: {missing}. Received: {received}/{total}"

/-- The existence-and-size pass of lines 413-422: walk indices in order,
failing on the first missing chunk file, summing `st_size`. -/
def expectedTotalGo (chunks : List (Nat × List Nat)) : List Nat → Nat → Except String Nat
  | [], acc => Except.ok acc
  | i :: rest, acc =>
    match chunkLookup chunks i with
    | none => Except.error s!"Chunk {i} file not found"
    | some data => expectedTotalGo chunks rest (acc + data.length)

/-- Value `expected_total_size` after the first loop. -/
def expectedTotalSize (chunks : List (Nat × List Nat)) (total : Nat) : Except String Nat :=
  expectedTotalGo chunks (List.range total) 0

/-- The merge pass of lines 427-443: read chunks `0 .. total-1` in order
and append; both reads of a chunk see the same stored bytes in this
race-free model, so the size-mismatch guard of lines 434-438 compares
equal numbers (it is kept in code shape). -/
def mergeGo (chunks : List (Nat × List Nat)) : List Nat → List Nat → Except String (List Nat)
  | [], acc => Except.ok acc
  | i :: rest, acc =>
    match chunkLookup chunks i with
    | none => Except.error s!"Chunk {i} file not found"
    | some data =>
      let chunk_file_size := data.length
      let got := data.length
      if data.length ≠ chunk_file_size then
        Except.error s!"Chunk {i} size mismatch: expected {chunk_file_size}, got {got}"
      else mergeGo chunks rest (acc ++ data)

/-- The merged file contents. -/
def mergeChunks (chunks : List (Nat × List Nat)) (total : Nat) : Except String (List Nat) :=
  mergeGo chunks (List.range total) []

/-- Endpoint `complete_chunk_upload` (lines 383-532), up to queuing the background
conversion: count check, ordered existence pass, ordered merge, merged-size
verification against `total_size` and `expected_total_size`
(lines 452-457), and the header length check (lines 460-480).  `ok merged`
means the merged file is queued for conversion. -/
def complete_chunk_upload (info : UploadInfo) : Except String (List Nat) :=
  if info.chunks.length ≠ info.total_chunks then
    Except.error (notAllChunksMsg info)
  else
    match expectedTotalSize info.chunks info.total_chunks with
    | Except.error e => Except.error e
    | Except.ok expected_total_size =>
      match mergeChunks info.chunks info.total_chunks with
      | Except.error e => Except.error e
      | Except.ok merged =>
        let total_size := merged.length
        let actual_file_size := merged.length
        if actual_file_size ≠ total_size ∨ actual_file_size ≠ expected_total_size then
          Except.error
            s!"File merge verification failed: expected {expected_total_size} bytes, got {actual_file_size} bytes"
        else if (merged.take 16).length < 4 then
          Except.error "Merged file appears to be corrupted (too small)"
        else Except.ok merged

theorem expectedTotalGo_ok (chunks : List (Nat × List Nat)) :
    ∀ (l : List Nat) (acc : Nat), (∀ i ∈ l, (chunkLookup chunks i).isSome = true) →
      expectedTotalGo chunks l acc =
        Except.ok (acc + (l.map fun i => ((chunkLookup chunks i).getD []).length).sum) := by
  intro l
  induction l with
  | nil => intro acc _; simp [expectedTotalGo]
  | cons i rest ih =>
    intro acc hall
    have hi : (chunkLookup chunks i).isSome = true := hall i (List.mem_cons_self i rest)
    obtain ⟨data, hdata⟩ := Option.isSome_iff_exists.mp hi
    rw [expectedTotalGo, hdata]
    show expectedTotalGo chunks rest (acc + data.length) = _
    rw [ih _ (fun j hj => hall j (List.mem_cons_of_mem i hj))]
    simp [hdata, Nat.add_assoc]

theorem mergeGo_ok (chunks : List (Nat × List Nat)) :
    ∀ (l : List Nat) (acc : List Nat), (∀ i ∈ l, (chunkLookup chunks i).isSome = true) →
      mergeGo chunks l acc =
        Except.ok (acc ++ l.flatMap fun i => (chunkLookup chunks i).getD []) := by
  intro l
  induction l with
  | nil => intro acc _; simp [mergeGo]
  | cons i rest ih =>
    intro acc hall
    have hi : (chunkLookup chunks i).isSome = true := hall i (List.mem_cons_self i rest)
    obtain ⟨data, hdata⟩ := Option.isSome_iff_exists.mp hi
    rw [mergeGo, hdata]
    show (if data.length ≠ data.length then _ else mergeGo chunks rest (acc ++ data)) = _
    rw [if_neg (by simp)]
    rw [ih _ (fun j hj => hall j (List.mem_cons_of_mem i hj))]
    simp [hdata]

theorem mergeGo_isSome_of_ok (chunks : List (Nat × List Nat)) :
    ∀ (l : List Nat) (acc merged : List Nat),
      mergeGo chunks l acc = Except.ok merged →
      ∀ i ∈ l, (chunkLookup chunks i).isSome = true := by
  intro l
  induction l with
  | nil => intro acc merged _ i hi; simp at hi
  | cons j rest ih =>
    intro acc merged hok i hi
    rw [mergeGo] at hok
    cases hdata : chunkLookup chunks j with
    | none => rw [hdata] at hok; exact absurd hok (by simp)
    | some data =>
      rw [hdata] at hok
      have hok2 : mergeGo chunks rest (acc ++ data) = Except.ok merged := by
        simpa using hok
      rcases List.mem_cons.mp hi with h1 | h2
      · subst h1; simp [hdata]
      · exact ih _ _ hok2 i h2

theorem chunkLookup_isSome_of_mem {chunks : List (Nat × List Nat)} {i : Nat}
    (h : i ∈ chunks.map Prod.fst) : (chunkLookup chunks i).isSome = true := by
  obtain ⟨c, hmem, hk⟩ := List.mem_map.mp h
  have : (chunks.find? fun c => c.1 == i).isSome = true :=
    List.find?_isSome.mpr ⟨c, hmem, by simp [hk]⟩
  simpa [chunkLookup] using this

/-- C8: `complete_chunk_upload` merges chunk files strictly in
ascending index order `0 .. total_chunks-1`; it succeeds only when every
one of the `total_chunks` indices has been received (a missing-count run
fails with the message listing the missing indices); and on success the
reassembled byte count equals the sum of the individual chunk sizes — the
verification performed before the merged file is queued for conversion. -/
theorem C8_chunk_reassembly (info : UploadInfo) :
    (∀ merged, complete_chunk_upload info = Except.ok merged →
      ∀ i < info.total_chunks, (chunkLookup info.chunks i).isSome = true) ∧
    (info.chunks.length ≠ info.total_chunks →
      complete_chunk_upload info = Except.error (notAllChunksMsg info)) ∧
    ((info.chunks.map Prod.fst).Perm (List.range info.total_chunks) →
      4 ≤ ((List.range info.total_chunks).map fun i =>
          ((chunkLookup info.chunks i).getD []).length).sum →
      complete_chunk_upload info =
        Except.ok ((List.range info.total_chunks).flatMap fun i =>
          (chunkLookup info.chunks i).getD []) ∧
      ((List.range info.total_chunks).flatMap fun i =>
          (chunkLookup info.chunks i).getD []).length =
        ((List.range info.total_chunks).map fun i =>
          ((chunkLookup info.chunks i).getD []).length).sum) := by
  refine ⟨?_, ?_, ?_⟩
  · intro merged hok i hi
    unfold complete_chunk_upload at hok
    split at hok
    · exact absurd hok (by simp)
    · split at hok
      · exact absurd hok (by simp)
      · split at hok
        · exact absurd hok (by simp)
        · rename_i m hmer
          exact mergeGo_isSome_of_ok info.chunks _ _ m hmer i (List.mem_range.mpr hi)
  · intro h
    rw [complete_chunk_upload, if_pos h]
  · intro hperm hsize
    have hcount : info.chunks.length = info.total_chunks := by
      have := hperm.length_eq
      simpa using this
    have hall : ∀ i ∈ List.range info.total_chunks,
        (chunkLookup info.chunks i).isSome = true := by
      intro i hi
      exact chunkLookup_isSome_of_mem (hperm.mem_iff.mpr hi)
    have hexp : expectedTotalSize info.chunks info.total_chunks =
        Except.ok (((List.range info.total_chunks).map fun i =>
          ((chunkLookup info.chunks i).getD []).length).sum) := by
      unfold expectedTotalSize
      rw [expectedTotalGo_ok info.chunks _ 0 hall]
      simp
    have hmer : mergeChunks info.chunks info.total_chunks =
        Except.ok ((List.range info.total_chunks).flatMap fun i =>
          (chunkLookup info.chunks i).getD []) := by
      unfold mergeChunks
      rw [mergeGo_ok info.chunks _ [] hall]
      simp
    have hlen : ((List.range info.total_chunks).flatMap fun i =>
        (chunkLookup info.chunks i).getD []).length =
        ((List.range info.total_chunks).map fun i =>
          ((chunkLookup info.chunks i).getD []).length).sum := by
      simp [List.flatMap, Function.comp_def]
    refine ⟨?_, hlen⟩
    rw [complete_chunk_upload, if_neg (by omega), hexp, hmer]
    show (if _ ∨ _ then _ else _) = _
    rw [if_neg (by push_neg; exact ⟨rfl, hlen⟩)]
    rw [if_neg (by simp [List.length_take, hlen]; omega)]

/-! ## Job registry progress clamp (`main.py`, `update_progress`
lines 855-865 and the completion step of `process_conversion`,
lines 812-815)

The in-memory `conversion_jobs` dict is an association list from job id to
status record. -/

/-- One `ConversionStatus` record (the fields the claims touch). -/
structure ConversionStatus where
  status : String
  progress : Nat
  message : String
  deriving Repr, DecidableEq

/-- Function `update_progress(job_id, progress)`: when the job exists, store
`min(progress, 99)`; otherwise only a warning is printed and the registry
is unchanged (lines 856-865). -/
def update_progress (jobs : List (String × ConversionStatus)) (job_id : String)
    (progress : Nat) : List (String × ConversionStatus) :=
  if (jobs.find? fun j => j.1 == job_id).isSome then
    jobs.map fun j =>
      if j.1 == job_id then (j.1, { j.2 with progress := min progress 99 }) else j
  else jobs

/-- The progress callback of `process_conversion` (lines 765-772): the
upload stage occupies 50-100%, `total_progress = 50 + int(u * 50)`; for the
callback values `u ∈ [0, 1]` the Python `int` truncation is the floor. -/
def callbackProgress (u : ℚ) : Nat := (50 + ⌊u * 50⌋).toNat

/-- The successful-completion step of lines 812-815: status `completed`,
progress `100`. -/
def completeJob (jobs : List (String × ConversionStatus)) (job_id : String) :
    List (String × ConversionStatus) :=
  jobs.map fun j =>
    if j.1 == job_id then
      (j.1, { j.2 with
                status := "completed"
                progress := 100
                message := "Conversion and upload completed successfully!" })
    else j

/-- C10: For every job id present in the registry, `update_progress`
stores `min(progress, 99)` — every stored value is at most 99 and entries
for other jobs are untouched — so a registry whose progress values are all
below 100 stays that way under any number of progress callbacks, and a
job's progress reaches 100 only through the pipeline's explicit completion
step, which sets status `completed` and progress `100`. -/
theorem C10_progress_clamped_below_100 (jobs : List (String × ConversionStatus))
    (job_id : String) (p : Nat) (u : ℚ) :
    (∀ j ∈ update_progress jobs job_id p, j.1 = job_id → j.2.progress = min p 99) ∧
    (∀ j ∈ update_progress jobs job_id p, j.1 ≠ job_id → j ∈ jobs) ∧
    (∀ j ∈ update_progress jobs job_id p, j.2.progress ≤ 99 ∨ j ∈ jobs) ∧
    ((∀ j ∈ jobs, j.2.progress ≤ 99) →
      ∀ j ∈ update_progress jobs job_id (callbackProgress u), j.2.progress ≤ 99) ∧
    (∀ j ∈ completeJob jobs job_id, j.1 = job_id →
      j.2.progress = 100 ∧ j.2.status = "completed") := by
  have hmem : ∀ (v : Nat) (j : String × ConversionStatus),
      j ∈ update_progress jobs job_id v →
      (j.1 = job_id ∧ j.2.progress = min v 99) ∨ (j.1 ≠ job_id ∧ j ∈ jobs) ∨
        (j ∈ jobs ∧ ¬ (jobs.find? fun x => x.1 == job_id).isSome = true) := by
    intro v j hj
    unfold update_progress at hj
    split at hj
    · obtain ⟨j₀, hj₀, hje⟩ := List.mem_map.mp hj
      by_cases he : j₀.1 = job_id
      · rw [if_pos (by simp [he])] at hje
        subst hje
        exact Or.inl ⟨he, rfl⟩
      · rw [if_neg (by simp [he])] at hje
        subst hje
        exact Or.inr (Or.inl ⟨he, hj₀⟩)
    · rename_i hfind
      exact Or.inr (Or.inr ⟨hj, hfind⟩)
  refine ⟨?_, ?_, ?_, ?_, ?_⟩
  · intro j hj hid
    rcases hmem p j hj with ⟨-, h⟩ | ⟨hne, -⟩ | ⟨hin, hfind⟩
    · exact h
    · exact absurd hid hne
    · exact absurd (List.find?_isSome.mpr ⟨j, hin, by simp [hid]⟩) hfind
  · intro j hj hne
    rcases hmem p j hj with ⟨hid, -⟩ | ⟨-, hin⟩ | ⟨hin, -⟩
    · exact absurd hid hne
    · exact hin
    · exact hin
  · intro j hj
    rcases hmem p j hj with ⟨-, h⟩ | ⟨-, hin⟩ | ⟨hin, -⟩
    · exact Or.inl (h ▸ Nat.min_le_right p 99)
    · exact Or.inr hin
    · exact Or.inr hin
  · intro hall j hj
    rcases hmem (callbackProgress u) j hj with ⟨-, h⟩ | ⟨-, hin⟩ | ⟨hin, -⟩
    · exact h ▸ Nat.min_le_right _ 99
    · exact hall j hin
    · exact hall j hin
  · intro j hj hid
    unfold completeJob at hj
    obtain ⟨j₀, hj₀, hje⟩ := List.mem_map.mp hj
    by_cases he : j₀.1 = job_id
    · rw [if_pos (by simp [he])] at hje
      subst hje
      exact ⟨rfl, rfl⟩
    · rw [if_neg (by simp [he])] at hje
      subst hje
      exact absurd hid he

/-! ## Capability errors of the converter
(`DZIConverter.convert` lines 190-233, `_convert_with_vips` lines 281-311)

Formats in the slide-scanner set require pyvips; when it is unavailable
(including after the dynamic find-and-reload attempt fails) `convert`
raises a `ValueError` whose message names the extension and the missing
`pyvips` capability.  During a vips load, JPEG2000-related failures are
converted to `ValueError`s naming JPEG2000; other exceptions propagate
unchanged.  `ValueError` is the distinguishable capability
error of the converter, separate from the generic exceptions. -/

/-- Python exception classes reaching the pipeline driver. -/
inductive PyErr where
  | valueError (msg : String)
  | runtimeError (msg : String)
  | generic (msg : String)
  deriving Repr, DecidableEq

/-- Code `file_ext in the slide-extension set` (line 192). -/
def requiresVips (ext : String) : Bool :=
  [".svs", ".ndpi", ".mrxs", ".vms", ".vmu", ".scn", ".bif"].contains ext

/-- An apostrophe character, used inside the installation-help text. -/
def aposStr : String := String.singleton (Char.ofNat 39)

/-- Fixed tail of the pyvips-required message (lines 220-232). -/
def pyvipsRequiredTail : String :=
  " (libvips) 才能處理。\n\n" ++
  "安裝步驟：\n" ++
  "1. 下載 libvips: https://github.com/libvips/libvips/releases\n" ++
  "   Windows: 下載 vips-dev-w64-web-*.zip\n" ++
  "   macOS: brew install vips\n" ++
  "   Linux: apt-get install libvips-dev\n\n" ++
  "2. 解壓縮到固定位置（Windows），例如: C:\\vips-dev-8.15.0\\\n\n" ++
  "3. 設置環境變數:\n" ++
  "   - 方法1: 系統環境變數 Path 中新增: C:\\vips-dev-8.15.0\\bin\n" ++
  "   - 方法2: 設置 VIPSHOME=C:\\vips-dev-8.15.0\n" ++
  "   - 方法3: 在代碼開頭添加: os.environ[" ++ aposStr ++ "PATH" ++ aposStr ++
  "] = r" ++ aposStr ++ "C:\\vips-dev-8.15.0\\bin" ++ aposStr ++ " + " ++ aposStr ++
  ";" ++ aposStr ++ " + os.environ[" ++ aposStr ++ "PATH" ++ aposStr ++ "]\n\n" ++
  "4. 重新啟動應用程式\n\n" ++
  "詳細說明請查看: INSTALL_LIBVIPS.md"

/-- The `ValueError` message of lines 220-232:
`f"檔案格式 {file_ext} 需要 pyvips (libvips) 才能處理。..."`. -/
def pyvipsRequiredMsg (ext : String) : String :=
  "檔案格式 " ++ ext ++ " 需要 " ++ "pyvips" ++ pyvipsRequiredTail

/-- The capability gate at the top of `convert` (lines 190-233): when the
format requires pyvips and it is not loaded, one find-and-reload attempt
runs (`found`, `loaded` are its outcomes); if pyvips is still unavailable
a `ValueError` carrying the extension and the missing capability is
raised, else `convert` proceeds with the updated `use_vips` flag. -/
def convertCapabilityCheck (useVips found loaded : Bool) (ext : String) :
    Except PyErr Bool :=
  if requiresVips ext && !useVips then
    let useVips' := if found && loaded then true else useVips
    if !useVips' then Except.error (PyErr.valueError (pyvipsRequiredMsg ext))
    else Except.ok useVips'
  else Except.ok useVips

/-- Substring test, `pat in s`. -/
def containsSub (pat s : List Char) : Bool := (afterFirst pat s).isSome

/-- The `ValueError` message of lines 289-294 (adjacent Python string
literals concatenated). -/
def jpeg2000BuildMsg : String :=
  "libvips was built without " ++ "JPEG2000" ++ " support. " ++
  "SVS files require JPEG2000 support. " ++
  "Please install libopenjp2-7-dev and rebuild libvips, " ++
  "or use a libvips build that includes JPEG2000 support."

/-- Code `"JPEG2000" in str(e) or 'jp2k' in str(e).lower()` (line 288). -/
def isJpeg2000SeqError (m : String) : Bool :=
  containsSub "JPEG2000".data m.data ||
    containsSub "jp2k".data (m.data.map Char.toLower)

/-- Code `"JPEG2000" in error_msg or 'jp2k' in error_msg.lower() or 'openjpeg'
in error_msg.lower()` (line 302). -/
def isJpeg2000OuterError (m : String) : Bool :=
  containsSub "JPEG2000".data m.data ||
    containsSub "jp2k".data (m.data.map Char.toLower) ||
    containsSub "openjpeg".data (m.data.map Char.toLower)

/-- The `ValueError` message of lines 303-309. -/
def jpeg2000ProcessMsg (errorMsg : String) : String :=
  "libvips cannot process this SVS file: JPEG2000 support is missing.\n" ++
  "Error: " ++ errorMsg ++ "\n\n" ++
  "Solution: Install libopenjp2-7-dev and ensure libvips is built with JPEG2000 support.\n" ++
  "For Railway: The Dockerfile has been updated to include libopenjp2-7-dev.\n" ++
  "Please rebuild and redeploy the Docker image."

/-- Outcome of the two `pyvips.Image.new_from_file` attempts: `none` is
success, `some m` an exception with message `m`. -/
structure VipsLoadEnv where
  seqError : Option String
  defaultError : Option String
  deriving Repr, DecidableEq

/-- The image-load block of `_convert_with_vips` (lines 281-311): the
sequential-mode attempt, the JPEG2000 translation of its failure, the
default-mode retry, and the outer JPEG2000 translation; non-JPEG2000
outer failures re-raise unchanged. -/
def vipsLoadImage (env : VipsLoadEnv) : Except PyErr Unit :=
  match env.seqError with
  | none => Except.ok ()
  | some seqMsg =>
    if isJpeg2000SeqError seqMsg then
      Except.error (PyErr.valueError jpeg2000BuildMsg)
    else
      match env.defaultError with
      | none => Except.ok ()
      | some m =>
        if isJpeg2000OuterError m then
          Except.error (PyErr.valueError (jpeg2000ProcessMsg m))
        else Except.error (PyErr.generic m)

theorem afterFirst_nil_pat (s : List Char) :
    (afterFirst ([] : List Char) s).isSome = true := by
  cases s <;> simp [afterFirst, listStartsWith]

theorem afterFirst_isSome_of_occurs (pat b : List Char) :
    ∀ a : List Char, (afterFirst pat (a ++ (pat ++ b))).isSome = true := by
  intro a
  induction a with
  | nil =>
    cases pat with
    | nil => exact afterFirst_nil_pat _
    | cons p ps =>
      simp only [List.nil_append, List.cons_append]
      rw [afterFirst]
      rw [show (p :: (ps ++ b)) = (p :: ps) ++ b from rfl, listStartsWith_append]
      simp
  | cons x xs ih =>
    cases pat with
    | nil => exact afterFirst_nil_pat _
    | cons p ps =>
      rw [List.cons_append, afterFirst]
      split
      · simp
      · exact ih

/-- C9: When the source format requires a capability the engine lacks —
an extension in `{.svs, .ndpi, .mrxs, .vms, .vmu, .scn, .bif}` while pyvips
is unavailable (also after the dynamic reload attempt fails), or an SVS
needing JPEG2000 support missing from the libvips build — the converter
fails with the distinguishable `ValueError` capability error carrying the
missing capability name (the extension and `pyvips`, or `JPEG2000`) in its
message, not a generic error. -/
theorem C9_capability_error (ext : String) (useVips found loaded : Bool)
    (hreq : requiresVips ext = true) (hunavail : useVips = false)
    (hnoload : found = false ∨ loaded = false) :
    convertCapabilityCheck useVips found loaded ext =
      Except.error (PyErr.valueError (pyvipsRequiredMsg ext)) ∧
    containsSub "pyvips".data (pyvipsRequiredMsg ext).data = true ∧
    containsSub ext.data (pyvipsRequiredMsg ext).data = true ∧
    (∀ env : VipsLoadEnv, ∀ seqMsg, env.seqError = some seqMsg →
      isJpeg2000SeqError seqMsg = true →
      vipsLoadImage env = Except.error (PyErr.valueError jpeg2000BuildMsg)) ∧
    containsSub "JPEG2000".data jpeg2000BuildMsg.data = true ∧
    (∀ m m' : String, PyErr.valueError m ≠ PyErr.generic m' ∧
      PyErr.valueError m ≠ PyErr.runtimeError m') := by
  subst hunavail
  refine ⟨?_, ?_, ?_, ?_, ?_, ?_⟩
  · rcases hnoload with h | h <;> simp [convertCapabilityCheck, hreq, h]
  · unfold containsSub
    have hd : (pyvipsRequiredMsg ext).data =
        ("檔案格式 " ++ ext ++ " 需要 ").data ++
          ("pyvips".data ++ pyvipsRequiredTail.data) := by
      simp [pyvipsRequiredMsg, String.data_append, List.append_assoc]
    rw [hd]
    exact afterFirst_isSome_of_occurs _ _ _
  · unfold containsSub
    have hd : (pyvipsRequiredMsg ext).data =
        "檔案格式 ".data ++
          (ext.data ++ (" 需要 " ++ "pyvips" ++ pyvipsRequiredTail).data) := by
      simp [pyvipsRequiredMsg, String.data_append, List.append_assoc]
    rw [hd]
    exact afterFirst_isSome_of_occurs _ _ _
  · intro env seqMsg hseq hj
    unfold vipsLoadImage
    rw [hseq]
    simp [hj]
  · unfold containsSub
    have hd : jpeg2000BuildMsg.data =
        "libvips was built without ".data ++
          ("JPEG2000".data ++
            (" support. " ++ "SVS files require JPEG2000 support. " ++
             "Please install libopenjp2-7-dev and rebuild libvips, " ++
             "or use a libvips build that includes JPEG2000 support.").data) := by
      simp [jpeg2000BuildMsg, String.data_append, List.append_assoc]
    rw [hd]
    exact afterFirst_isSome_of_occurs _ _ _
  · intro m m'
    exact ⟨fun h => PyErr.noConfusion h, fun h => PyErr.noConfusion h⟩

theorem C9_capability_error_witness :
    (requiresVips ".svs" = true ∧ false = false ∧
      (false = false ∨ false = false)) ∧
    (convertCapabilityCheck false false false ".svs" =
      Except.error (PyErr.valueError (pyvipsRequiredMsg ".svs")) ∧
    containsSub "pyvips".data (pyvipsRequiredMsg ".svs").data = true ∧
    containsSub ".svs".data (pyvipsRequiredMsg ".svs").data = true ∧
    (∀ env : VipsLoadEnv, ∀ seqMsg, env.seqError = some seqMsg →
      isJpeg2000SeqError seqMsg = true →
      vipsLoadImage env = Except.error (PyErr.valueError jpeg2000BuildMsg)) ∧
    containsSub "JPEG2000".data jpeg2000BuildMsg.data = true ∧
    (∀ m m' : String, PyErr.valueError m ≠ PyErr.generic m' ∧
      PyErr.valueError m ≠ PyErr.runtimeError m')) :=
  ⟨⟨by decide, rfl, Or.inl rfl⟩,
   C9_capability_error ".svs" false false false (by decide) rfl (Or.inl rfl)⟩
